import Mathlib

set_option maxRecDepth 400000

/-!
Verification of the URL-shortener subsystem of `irc-agent`.

The model shallowly embeds the Go sources:
* `URLShortener` with `Shorten`, `GetShortURL` and the HTTP handler
  installed by `Serve` (src/unnamed/part_011);
* the `URLStorage` backends `InMemoryStorage` and `RedisStorage`
  (src/unnamed/part_005).

Strings are modelled as `List Char`; Go byte strings as `List Nat`
(each element a byte value).  `crypto/sha256` and `encoding/hex` are
embedded as executable functions (FIPS 180-4 SHA-256 over the UTF-8
bytes of the input, then lowercase hex encoding), exactly the data
path of `URLShortener.Shorten`.
-/

namespace IrcAgent

/-- Truncate to a 32-bit word, the wrap-around of Go's `uint32`. -/
def w32 (n : Nat) : Nat := n % 4294967296

/-- 32-bit right rotation. -/
def rotr32 (n x : Nat) : Nat := w32 ((x >>> n) ||| (x <<< (32 - n)))

/-- SHA-256 `Ch` function; complement taken inside 32 bits. -/
def ch32 (x y z : Nat) : Nat := (x &&& y) ^^^ ((x ^^^ 4294967295) &&& z)

/-- SHA-256 `Maj` function. -/
def maj32 (x y z : Nat) : Nat := (x &&& y) ^^^ (x &&& z) ^^^ (y &&& z)

/-- SHA-256 big sigma 0. -/
def bsig0 (x : Nat) : Nat := rotr32 2 x ^^^ rotr32 13 x ^^^ rotr32 22 x

/-- SHA-256 big sigma 1. -/
def bsig1 (x : Nat) : Nat := rotr32 6 x ^^^ rotr32 11 x ^^^ rotr32 25 x

/-- SHA-256 small sigma 0. -/
def ssig0 (x : Nat) : Nat := rotr32 7 x ^^^ rotr32 18 x ^^^ (x >>> 3)

/-- SHA-256 small sigma 1. -/
def ssig1 (x : Nat) : Nat := rotr32 17 x ^^^ rotr32 19 x ^^^ (x >>> 10)

/-- The 64 SHA-256 round constants. -/
def shaK : List Nat := [
  1116352408, 1899447441, 3049323471, 3921009573, 961987163, 1508970993, 2453635748, 2870763221,
  3624381080, 310598401, 607225278, 1426881987, 1925078388, 2162078206, 2614888103, 3248222580,
  3835390401, 4022224774, 264347078, 604807628, 770255983, 1249150122, 1555081692, 1996064986,
  2554220882, 2821834349, 2952996808, 3210313671, 3336571891, 3584528711, 113926993, 338241895,
  666307205, 773529912, 1294757372, 1396182291, 1695183700, 1986661051, 2177026350, 2456956037,
  2730485921, 2820302411, 3259730800, 3345764771, 3516065817, 3600352804, 4094571909, 275423344,
  430227734, 506948616, 659060556, 883997877, 958139571, 1322822218, 1537002063, 1747873779,
  1955562222, 2024104815, 2227730452, 2361852424, 2428436474, 2756734187, 3204031479, 3329325298]

/-- The eight 32-bit words of a SHA-256 state. -/
structure Hash8 where
  a : Nat
  b : Nat
  c : Nat
  d : Nat
  e : Nat
  f : Nat
  g : Nat
  h : Nat
  deriving DecidableEq, Repr

/-- SHA-256 initial hash value. -/
def shaH0 : Hash8 :=
  ⟨1779033703, 3144134277, 1013904242, 2773480762, 1359893119, 2600822924, 528734635, 1541459225⟩

/-- Combine four bytes into a big-endian 32-bit word. -/
def toWords : List Nat → List Nat
  | b0 :: b1 :: b2 :: b3 :: rest =>
      (b0 <<< 24 ||| b1 <<< 16 ||| b2 <<< 8 ||| b3) :: toWords rest
  | _ => []

/-- Next word of the SHA-256 message schedule, from the tail of the
words built so far. -/
def schedWord (w : List Nat) : Nat :=
  let L := w.length
  w32 (w.getD (L - 16) 0 + ssig0 (w.getD (L - 15) 0) +
       w.getD (L - 7) 0 + ssig1 (w.getD (L - 2) 0))

/-- Extend the message schedule by `n` further words. -/
def extendSched : Nat → List Nat → List Nat
  | 0, w => w
  | n + 1, w => extendSched n (w ++ [schedWord w])

/-- One SHA-256 compression round; the pair carries the round
constant and the scheduled word. -/
def shaRound (st : Hash8) (kw : Nat × Nat) : Hash8 :=
  let t1 := w32 (st.h + bsig1 st.e + ch32 st.e st.f st.g + kw.1 + kw.2)
  let t2 := w32 (bsig0 st.a + maj32 st.a st.b st.c)
  ⟨w32 (t1 + t2), st.a, st.b, st.c, w32 (st.d + t1), st.e, st.f, st.g⟩

/-- Word-wise modular addition of two states. -/
def addHash (x y : Hash8) : Hash8 :=
  ⟨w32 (x.a + y.a), w32 (x.b + y.b), w32 (x.c + y.c), w32 (x.d + y.d),
   w32 (x.e + y.e), w32 (x.f + y.f), w32 (x.g + y.g), w32 (x.h + y.h)⟩

/-- Compress one 64-byte chunk into the running state. -/
def compress (st : Hash8) (chunk : List Nat) : Hash8 :=
  let ws := extendSched 48 (toWords chunk)
  addHash st ((shaK.zip ws).foldl shaRound st)

/-- Process `n` 64-byte chunks of the padded message. -/
def processN : Nat → Hash8 → List Nat → Hash8
  | 0, st, _ => st
  | n + 1, st, msg => processN n (compress st (msg.take 64)) (msg.drop 64)

/-- The 8-byte big-endian encoding of the message bit length. -/
def lenBytes (n : Nat) : List Nat :=
  [n >>> 56 &&& 255, n >>> 48 &&& 255, n >>> 40 &&& 255, n >>> 32 &&& 255,
   n >>> 24 &&& 255, n >>> 16 &&& 255, n >>> 8 &&& 255, n &&& 255]

/-- SHA-256 padding: a `0x80` byte, zeros to 56 mod 64, then the
64-bit big-endian bit length. -/
def padBytes (msg : List Nat) : List Nat :=
  let l := msg.length
  msg ++ 128 :: List.replicate ((119 - l % 64) % 64) 0 ++ lenBytes (8 * l)

/-- The four big-endian bytes of a 32-bit word. -/
def wordBytesBE (w : Nat) : List Nat :=
  [w >>> 24 &&& 255, w >>> 16 &&& 255, w >>> 8 &&& 255, w &&& 255]

/-- The 32 digest bytes of a final state. -/
def digestBytes (st : Hash8) : List Nat :=
  wordBytesBE st.a ++ wordBytesBE st.b ++ wordBytesBE st.c ++ wordBytesBE st.d ++
  wordBytesBE st.e ++ wordBytesBE st.f ++ wordBytesBE st.g ++ wordBytesBE st.h

/-- SHA-256 of a byte string, as 32 digest bytes
(`sha256.Sum256` in the Go source). -/
def sha256Bytes (msg : List Nat) : List Nat :=
  let p := padBytes msg
  digestBytes (processN (p.length / 64) shaH0 p)

/-- The lowercase hex alphabet of Go's `encoding/hex`. -/
def hexTable : List Char := "0123456789abcdef".data

/-- Hex digit for a nibble, by table lookup as in `encoding/hex`. -/
def hexDigitChar (n : Nat) : Char := hexTable.getD n '0'

/-- `hex.EncodeToString`: two lowercase hex digits per byte,
high nibble first. -/
def hexEncode : List Nat → List Char
  | [] => []
  | b :: t => hexDigitChar (b >>> 4) :: hexDigitChar (b &&& 15) :: hexEncode t

/-- UTF-8 encoding of one character (Go strings are UTF-8;
`[]byte(url)` yields these bytes). -/
def utf8Char (c : Char) : List Nat :=
  let n := c.toNat
  if n < 128 then [n]
  else if n < 2048 then [192 + (n >>> 6), 128 + (n &&& 63)]
  else if n < 65536 then
    [224 + (n >>> 12), 128 + ((n >>> 6) &&& 63), 128 + (n &&& 63)]
  else
    [240 + (n >>> 18), 128 + ((n >>> 12) &&& 63), 128 + ((n >>> 6) &&& 63), 128 + (n &&& 63)]

/-- UTF-8 bytes of a string. -/
def utf8Bytes (s : List Char) : List Nat :=
  s.foldr (fun c acc => utf8Char c ++ acc) []

/-- A Go `map[string]string`, modelled as an association list with
overwrite-on-insert semantics. -/
abbrev Store := List (List Char × List Char)

/-- Map read (`m[k]` with the comma-ok idiom yielding `Option`). -/
def mapGet : Store → List Char → Option (List Char)
  | [], _ => none
  | (k, v) :: t, key => if k = key then some v else mapGet t key

/-- Map write `m[k] = v`: the new binding shadows and replaces any
previous binding of the key. -/
def mapSet (m : Store) (key v : List Char) : Store :=
  (key, v) :: m.filter (fun p => decide (p.1 ≠ key))

/-- `URLShortener` of src/unnamed/part_011: the mapping from short ID
to original URL, the ID length (8), and the base host for short
links. -/
structure URLShortener where
  urlMap : Store
  idLength : Nat
  host : List Char
  deriving DecidableEq

/-- `NewURLShortener`: empty map, ID length 8, supplied host. -/
def NewURLShortener (host : List Char) : URLShortener :=
  { urlMap := [], idLength := 8, host := host }

/-- The fingerprint of a URL: the first `n` characters of the
lowercase hex encoding of its SHA-256 digest. -/
def shortIDOf (n : Nat) (url : List Char) : List Char :=
  (hexEncode (sha256Bytes (utf8Bytes url))).take n

/-- `URLShortener.Shorten`: hash the URL, truncate to `idLength` hex
characters, store the mapping, return the short ID. -/
def URLShortener.Shorten (us : URLShortener) (url : List Char) :
    List Char × URLShortener :=
  let shortID := shortIDOf us.idLength url
  (shortID, { us with urlMap := mapSet us.urlMap shortID url })

/-- `URLShortener.GetShortURL`: `host + "/" + Shorten(url)`. -/
def URLShortener.GetShortURL (us : URLShortener) (url : List Char) :
    List Char × URLShortener :=
  let r := us.Shorten url
  (us.host ++ '/' :: r.1, r.2)

/-- `strings.TrimPrefix`: drop the prefix when present, otherwise
return the string unchanged. -/
def trimPrefix (s pre : List Char) : List Char :=
  if pre.isPrefixOf s then s.drop pre.length else s

/-- `unicode.IsSpace`: Go's white-space predicate (ASCII white space,
NEL, NBSP and the Unicode space separators). -/
def goIsSpace (c : Char) : Bool :=
  let n := c.toNat
  decide (n = 9 ∨ n = 10 ∨ n = 11 ∨ n = 12 ∨ n = 13 ∨ n = 32 ∨ n = 133 ∨ n = 160 ∨
    n = 5760 ∨ (8192 ≤ n ∧ n ≤ 8202) ∨ n = 8232 ∨ n = 8233 ∨ n = 8239 ∨ n = 8287 ∨
    n = 12288)

/-- `strings.TrimSpace`: remove white space from both ends. -/
def trimSpace (s : List Char) : List Char :=
  ((s.dropWhile goIsSpace).reverse.dropWhile goIsSpace).reverse

/-- An HTTP request as the handler sees it: method, URL path, and the
fully read body. -/
structure Request where
  method : List Char
  path : List Char
  body : List Char
  deriving DecidableEq

/-- The observable HTTP response: status code, optional `Location`
header, and body text. -/
structure Response where
  status : Nat
  location : Option (List Char)
  body : List Char
  deriving DecidableEq

/-- The usage banner written for `GET /`. -/
def usageBanner : List Char :=
  ("URL Shortener Service\nUsage:\n  GET  /<short-id> - Redirect to original URL\n" ++
   "  POST /           - Create short URL (send URL in body)\n").data

/-- `net/url` split with `cutc = true`: the parts before and after
the first occurrence of the separator (all of the string and empty
when the separator is absent). -/
def splitCut (sep : Char) : List Char → List Char × List Char
  | [] => ([], [])
  | c :: t =>
      if c = sep then ([], t)
      else
        let r := splitCut sep t
        (c :: r.1, r.2)

/-- Split at the first occurrence of the separator, keeping the
separator on the second part (`cutc = false`). -/
def splitKeep (sep : Char) : List Char → List Char × List Char
  | [] => ([], [])
  | c :: t =>
      if c = sep then ([], c :: t)
      else
        let r := splitKeep sep t
        (c :: r.1, r.2)

/-- `stringContainsCTLByte`: an ASCII control character (below space,
or DEL).  Non-ASCII characters encode as bytes at or above `0x80`, so
the character-level check agrees with Go's byte-level one. -/
def containsCTL (s : List Char) : Bool :=
  s.any fun c => decide (c.toNat < 32 ∨ c.toNat = 127)

/-- Go `ishex`: `0-9`, `a-f`, `A-F`. -/
def isHexDigitGo (c : Char) : Bool :=
  let n := c.toNat
  decide ((48 ≤ n ∧ n ≤ 57) ∨ (97 ≤ n ∧ n ≤ 102) ∨ (65 ≤ n ∧ n ≤ 70))

/-- `net/url unescape` succeeds on this mode-independent core: every
`%` must be followed by two hex digits. -/
def validEscapes : List Char → Bool
  | [] => true
  | c :: t =>
      if c = '%' then
        match t with
        | a :: b :: t2 => isHexDigitGo a && isHexDigitGo b && validEscapes t2
        | _ => false
      else validEscapes t

/-- `net/url validUserinfo`: alphanumerics and the userinfo
sub-delimiters (`- . _ : ~ ! $ & ' ( ) * + , ; = % @`). -/
def validUserinfo (s : List Char) : Bool :=
  s.all fun c =>
    let n := c.toNat
    decide ((65 ≤ n ∧ n ≤ 90) ∨ (97 ≤ n ∧ n ≤ 122) ∨ (48 ≤ n ∧ n ≤ 57) ∨
      n = 45 ∨ n = 46 ∨ n = 95 ∨ n = 58 ∨ n = 126 ∨ n = 33 ∨ n = 36 ∨ n = 38 ∨
      n = 39 ∨ n = 40 ∨ n = 41 ∨ n = 42 ∨ n = 43 ∨ n = 44 ∨ n = 59 ∨ n = 61 ∨
      n = 37 ∨ n = 64)

/-- Outcome of `net/url getScheme`: the missing-protocol-scheme
error, no scheme (rest is the whole input), or a scheme and the part
after the colon. -/
inductive SchemeResult where
  | err
  | noScheme
  | scheme (s rest : List Char)
  deriving DecidableEq

/-- The `getScheme` scan: letters continue; digits and `+ - .`
continue unless first; a colon ends a non-empty scheme and errors
when first; anything else means no scheme. -/
def getSchemeAux (acc : List Char) : List Char → SchemeResult
  | [] => .noScheme
  | c :: t =>
      let n := c.toNat
      if (65 ≤ n ∧ n ≤ 90) ∨ (97 ≤ n ∧ n ≤ 122) then getSchemeAux (c :: acc) t
      else if (48 ≤ n ∧ n ≤ 57) ∨ n = 43 ∨ n = 45 ∨ n = 46 then
        if acc = [] then .noScheme else getSchemeAux (c :: acc) t
      else if n = 58 then
        if acc = [] then .err else .scheme acc.reverse t
      else .noScheme

/-- `net/url getScheme` on a raw URL. -/
def getSchemeGo (s : List Char) : SchemeResult := getSchemeAux [] s

/-- Whether the pre-fragment part of the URL begins with a URL scheme
(`scheme:`), the condition under which `url.Parse` reports a
non-empty `Scheme`. -/
def hasURLScheme (u : List Char) : Bool :=
  match getSchemeGo (splitCut '#' u).1 with
  | .scheme _ _ => true
  | _ => false

/-- The condition under which `http.Redirect` rewrites its URL:
`url.Parse(url)` succeeds with empty `Scheme` and empty `Host`.
Transcribed from `net/url.Parse`: fragment split, control-byte
check, the `"*"` special case, `getScheme`, query split, the
first-segment colon check for rootless paths, the authority parse
for `//` (an empty host means an empty or userinfo-only authority),
and percent-escape validation of path, userinfo and fragment. -/
def redirectRewriteApplies (u : List Char) : Bool :=
  let pre := (splitCut '#' u).1
  let frag := (splitCut '#' u).2
  if containsCTL pre then false
  else if pre = "*".data then validEscapes frag
  else
    match getSchemeGo pre with
    | .err => false
    | .scheme _ _ => false
    | .noScheme =>
        let rest := (splitCut '?' pre).1
        if ¬ (['/'].isPrefixOf rest) then
          let seg := (splitCut '/' rest).1
          if seg.any (fun c => decide (c = ':')) then false
          else validEscapes rest && validEscapes frag
        else if ("//".data.isPrefixOf rest) && ¬ ("///".data.isPrefixOf rest) then
          let afterSlashes := rest.drop 2
          let authority := (splitKeep '/' afterSlashes).1
          let rest2 := (splitKeep '/' afterSlashes).2
          (if authority = [] then true
           else if authority.getLast? = some '@' then
             validUserinfo authority.dropLast && validEscapes authority.dropLast
           else false) &&
            validEscapes rest2 && validEscapes frag
        else validEscapes rest && validEscapes frag

/-- `path.Split` directory part: everything up to and including the
final slash (empty when there is no slash). -/
def pathDir (p : List Char) : List Char :=
  (p.reverse.dropWhile (fun c => decide (c ≠ '/'))).reverse

/-- Split on every slash, keeping empty segments. -/
def splitOnSlash : List Char → List (List Char)
  | [] => [[]]
  | c :: t =>
      let r := splitOnSlash t
      if c = '/' then [] :: r
      else (c :: r.headD []) :: r.tail

/-- The segment stack of `path.Clean`: `..` pops a poppable segment,
is dropped at the root, and is kept when relative. -/
def cleanSegs (rooted : Bool) : List (List Char) → List (List Char) → List (List Char)
  | st, [] => st
  | st, seg :: rest =>
      if seg = "..".data then
        if st ≠ [] ∧ st.getLast? ≠ some "..".data then cleanSegs rooted st.dropLast rest
        else if rooted then cleanSegs rooted st rest
        else cleanSegs rooted (st ++ [seg]) rest
      else cleanSegs rooted (st ++ [seg]) rest

/-- `path.Clean`: shortest equivalent path — no empty or `.`
segments, `..` resolved, `.` for the empty result. -/
def pathClean (p : List Char) : List Char :=
  if p = [] then ".".data
  else
    let rooted := decide (p.headD ' ' = '/')
    let segs := (splitOnSlash p).filter fun s => decide (s ≠ [] ∧ s ≠ ".".data)
    let out := List.intercalate "/".data (cleanSegs rooted [] segs)
    let r := if rooted then '/' :: out else out
    if r = [] then ".".data else r

/-- The relative-URL rewrite of `http.Redirect`: make a non-rooted
URL absolute against the request path's directory, split off the
query, `path.Clean` the path preserving a trailing slash, and
reattach the query. -/
def redirectRewrite (oldpath0 u0 : List Char) : List Char :=
  let oldpath := if oldpath0 = [] then "/".data else oldpath0
  let u1 := if u0 = [] ∨ u0.headD ' ' ≠ '/' then pathDir oldpath ++ u0 else u0
  let upath := (splitKeep '?' u1).1
  let query := (splitKeep '?' u1).2
  let trailing := decide (upath.getLast? = some '/')
  let cleaned := pathClean upath
  let cleaned2 :=
    if trailing ∧ cleaned.getLast? ≠ some '/' then cleaned ++ ['/'] else cleaned
  cleaned2 ++ query

/-- The URL `http.Redirect` actually redirects to: rewritten when it
parsed as scheme-less and host-less, otherwise untouched. -/
def redirectTargetURL (reqPath u : List Char) : List Char :=
  if redirectRewriteApplies u then redirectRewrite reqPath u else u

/-- `hexEscapeNonASCII` on the UTF-8 bytes: bytes at or above `0x80`
become `%` and two lowercase hex digits, ASCII bytes pass through. -/
def escapeBytes : List Nat → List Char
  | [] => []
  | b :: t =>
      if 128 ≤ b then
        '%' :: hexDigitChar (b >>> 4) :: hexDigitChar (b &&& 15) :: escapeBytes t
      else Char.ofNat b :: escapeBytes t

/-- `net/http hexEscapeNonASCII`: percent-escape every non-ASCII
byte of the string. -/
def hexEscapeNonASCII (s : List Char) : List Char :=
  escapeBytes (utf8Bytes s)

/-- The `Location` header value `http.Redirect` sets: the
(possibly rewritten) target, percent-escaped. -/
def redirectLocation (reqPath u : List Char) : List Char :=
  hexEscapeNonASCII (redirectTargetURL reqPath u)

/-- `htmlEscape`: the five HTML replacements of `net/http`. -/
def htmlEscape : List Char → List Char
  | [] => []
  | c :: t =>
      (if c.toNat = 38 then "&amp;".data
       else if c.toNat = 60 then "&lt;".data
       else if c.toNat = 62 then "&gt;".data
       else if c.toNat = 34 then "&#34;".data
       else if c.toNat = 39 then "&#39;".data
       else [c]) ++ htmlEscape t

/-- The HTML body `http.Redirect` writes for a GET without a
prior Content-Type: an anchor to the escaped target and the 301
status text, with `Fprintln`'s extra newline. -/
def redirectHTMLBody (target : List Char) : List Char :=
  "<a href=\"".data ++ htmlEscape target ++ "\">Moved Permanently</a>.\n\n".data

/-- A string of ASCII characters only. -/
def isASCII (s : List Char) : Bool :=
  s.all fun c => decide (c.toNat < 128)

/-- The handler installed by `URLShortener.Serve`
(src/unnamed/part_011): POST at root shortens the trimmed body, POST
elsewhere is 400, non-GET otherwise is 405, GET / is the banner, and
GET /<id> redirects (301) or is 404. -/
def serve (us : URLShortener) (r : Request) : Response × URLShortener :=
  let id := trimPrefix r.path ['/']
  if r.method = "POST".data then
    if id ≠ [] then
      ({ status := 400, location := none,
         body := "POST only allowed at root path\n".data }, us)
    else
      let url := trimSpace r.body
      if url = [] then
        ({ status := 400, location := none, body := "URL cannot be empty\n".data }, us)
      else
        let sr := us.GetShortURL url
        ({ status := 200, location := none, body := sr.1 }, sr.2)
  else if r.method ≠ "GET".data then
    ({ status := 405, location := none, body := "Method not allowed\n".data }, us)
  else if id = [] then
    ({ status := 200, location := none, body := usageBanner }, us)
  else
    match mapGet us.urlMap id with
    | none => ({ status := 404, location := none, body := "404 page not found\n".data }, us)
    | some originalURL =>
        ({ status := 301,
           location := some (redirectLocation r.path originalURL),
           body := redirectHTMLBody (redirectTargetURL r.path originalURL) }, us)

/-- `InMemoryStorage.Get` (src/unnamed/part_005): the map read with
the comma-ok idiom; a missing key yields the zero value, `false`, and
a nil error. -/
def InMemoryStorage.Get (m : Store) (shortID : List Char) :
    List Char × Bool × Option (List Char) :=
  match mapGet m shortID with
  | some url => (url, true, none)
  | none => ([], false, none)

/-- `InMemoryStorage.Set` (src/unnamed/part_005): plain map write,
never an error. -/
def InMemoryStorage.Set (m : Store) (shortID url : List Char) :
    Store × Option (List Char) :=
  (mapSet m shortID url, none)

/-- Outcome of one Redis `GET` round trip as seen by the client:
a value, the `redis.Nil` sentinel, or a connectivity/protocol
failure. -/
inductive RedisReply where
  | ok (v : List Char)
  | nilReply
  | failed (e : List Char)
  deriving DecidableEq

/-- The Redis client: a connectivity failure surfaces as an error,
otherwise a missing key is `redis.Nil` and a present key returns its
value. -/
def redisClientGet (data : Store) (conn : Option (List Char)) (key : List Char) :
    RedisReply :=
  match conn with
  | some e => .failed e
  | none =>
      match mapGet data key with
      | some v => .ok v
      | none => .nilReply

/-- `RedisStorage.Get` (src/unnamed/part_005): namespace the key as
`url:` + id, map `redis.Nil` to `(empty, false, nil)`, propagate other
errors, and return `(url, true, nil)` on a hit. -/
def RedisStorage.Get (data : Store) (conn : Option (List Char)) (shortID : List Char) :
    List Char × Bool × Option (List Char) :=
  let key := "url:".data ++ shortID
  match redisClientGet data conn key with
  | .failed e => ([], false, some e)
  | .nilReply => ([], false, none)
  | .ok url => (url, true, none)

/-- Modelled from the spec: the storage-backed shortener service used
by src/url_shortener_test.go (its two-argument `NewURLShortener` is
not under src/).  Per spec section 3 and section 4.2 the service owns
only the host and ID length; every mapping lives in the `URLStorage`
backend, written on `Shorten` and read on resolution. -/
structure StorageShortener where
  host : List Char
  idLength : Nat
  deriving DecidableEq

/-- Modelled from the spec: `Shorten` of the storage-backed service
computes the fingerprint and unconditionally writes the mapping to
the storage backend, returning the ID. -/
def StorageShortener.Shorten (sv : StorageShortener) (store : Store) (url : List Char) :
    List Char × Store :=
  let shortID := shortIDOf sv.idLength url
  (shortID, mapSet store shortID url)

/-- Modelled from the spec: resolution of the storage-backed service
is exactly a `Get` on the storage backend. -/
def StorageShortener.Resolve (sv : StorageShortener) (store : Store) (shortID : List Char) :
    List Char × Bool × Option (List Char) :=
  InMemoryStorage.Get store shortID

/-- An operation against the storage-backed service. -/
inductive SOp where
  | shorten (url : List Char)
  | resolve (id : List Char)

/-- Run a sequence of service operations, threading the backend
state; `resolve` is read-only. -/
def runOps (sv : StorageShortener) : Store → List SOp → Store
  | store, [] => store
  | store, .shorten u :: t => runOps sv (sv.Shorten store u).2 t
  | store, .resolve _ :: t => runOps sv store t

/-- A lowercase hexadecimal character: a decimal digit or one of
`a`–`f`. -/
def isLowerHexChar (c : Char) : Bool :=
  decide (('0' ≤ c ∧ c ≤ '9') ∨ ('a' ≤ c ∧ c ≤ 'f'))

/-- First member of a concrete pair of distinct URLs whose SHA-256
digests agree on their first 8 hex characters (`f9fa4987`). -/
def collU1 : List Char := "https://example.com/24716".data

/-- Second member of the colliding pair. -/
def collU2 : List Char := "https://example.com/54794".data

/-- A concrete host used to instantiate theorems. -/
def hostW : List Char := "http://h:3000".data

/-- A concrete URL with a non-ASCII character (`ü`, UTF-8 bytes
`c3 bc`), storable via `POST /`. -/
def uC3 : List Char := "https://example.com/ü".data

/-- A concrete shortener state holding one mapping, used to
instantiate theorems. -/
def usW : URLShortener :=
  { urlMap := [("abcd1234".data, "https://example.org/target".data)],
    idLength := 8, host := hostW }

/-! ## Helper lemmas -/

theorem length_sha256Bytes (m : List Nat) : (sha256Bytes m).length = 32 := by
  simp [sha256Bytes, digestBytes, wordBytesBE]

theorem length_hexEncode (l : List Nat) : (hexEncode l).length = 2 * l.length := by
  induction l with
  | nil => rfl
  | cons b t ih => simp [hexEncode, ih]; ring

theorem isLowerHexChar_hexDigitChar (n : Nat) :
    isLowerHexChar (hexDigitChar n) = true := by
  by_cases h : n < 16
  · exact (by decide : ∀ m, m < 16 → isLowerHexChar (hexDigitChar m) = true) n h
  · unfold hexDigitChar
    rw [List.getD_eq_default]
    · decide
    · have h16 : hexTable.length = 16 := rfl
      omega

theorem mem_hexEncode_isLowerHex (l : List Nat) :
    ∀ c ∈ hexEncode l, isLowerHexChar c = true := by
  induction l with
  | nil => intro c hc; cases hc
  | cons b t ih =>
      intro c hc
      simp only [hexEncode, List.mem_cons] at hc
      rcases hc with rfl | hc
      · exact isLowerHexChar_hexDigitChar _
      rcases hc with rfl | hc
      · exact isLowerHexChar_hexDigitChar _
      · exact ih c hc

theorem shortIDOf_length (u : List Char) : (shortIDOf 8 u).length = 8 := by
  simp [shortIDOf, length_hexEncode, length_sha256Bytes]

theorem shortIDOf_hex (n : Nat) (u : List Char) :
    ∀ c ∈ shortIDOf n u, isLowerHexChar c = true := by
  intro c hc
  exact mem_hexEncode_isLowerHex _ c (List.mem_of_mem_take hc)

theorem mapGet_mapSet_self (m : Store) (k v : List Char) :
    mapGet (mapSet m k v) k = some v := by
  simp [mapGet, mapSet]

theorem filter_self_filter (p : List Char × List Char → Bool) (m : Store) :
    (m.filter p).filter p = m.filter p := by
  induction m with
  | nil => rfl
  | cons a t ih =>
      by_cases h : p a = true
      · simp [List.filter, h, ih]
      · simp only [List.filter, Bool.not_eq_true] at h ⊢
        rw [h, ih]

theorem mapSet_idem (m : Store) (k v : List Char) :
    mapSet (mapSet m k v) k v = mapSet m k v := by
  simp only [mapSet, List.filter]
  rw [show (decide (k ≠ k) : Bool) = false by simp]
  exact congrArg _ (filter_self_filter _ m)

theorem mapGet_singleton (a b k v : List Char)
    (h : mapGet [(a, b)] k = some v) : v = b := by
  by_cases hk : a = k
  · simp [mapGet, hk] at h; exact h.symm
  · simp [mapGet, hk] at h

theorem trimPrefix_slash_ne_nil (path : List Char)
    (h0 : path ≠ []) (h1 : path ≠ ['/']) : trimPrefix path ['/'] ≠ [] := by
  match path with
  | [] => exact absurd rfl h0
  | c :: rest =>
      by_cases hc : c = '/'
      · subst hc
        have : rest ≠ [] := by
          intro hr; exact h1 (by rw [hr])
        simpa [trimPrefix, List.isPrefixOf] using this
      · have : ('/' == c) = false := by
          simp [beq_iff_eq]; intro h; exact hc h.symm
        simp [trimPrefix, List.isPrefixOf, this]

theorem hexEscapeNonASCII_ascii (s : List Char) (h : isASCII s = true) :
    hexEscapeNonASCII s = s := by
  induction s with
  | nil => rfl
  | cons c t ih =>
      simp only [isASCII, List.all_cons, Bool.and_eq_true, decide_eq_true_eq] at h
      obtain ⟨hc, ht⟩ := h
      have hb : utf8Char c = [c.toNat] := by
        simp [utf8Char, hc]
      have hstep : hexEscapeNonASCII (c :: t) =
          escapeBytes (c.toNat :: utf8Bytes t) := by
        simp [hexEscapeNonASCII, utf8Bytes, hb]
      rw [hstep]
      have hlt : ¬ 128 ≤ c.toNat := by omega
      simp only [escapeBytes, if_neg hlt]
      rw [Char.ofNat_toNat]
      exact congrArg _ (ih ht)

theorem hasURLScheme_not_applies (u : List Char) (h : hasURLScheme u = true) :
    redirectRewriteApplies u = false := by
  unfold hasURLScheme at h
  unfold redirectRewriteApplies
  by_cases hctl : containsCTL (splitCut '#' u).1 = true
  · simp [hctl]
  · simp only [Bool.not_eq_true] at hctl
    by_cases hstar : (splitCut '#' u).1 = "*".data
    · rw [hstar] at h
      exact absurd h (by decide)
    · simp only [hctl, hstar, Bool.false_eq_true, if_false]
      cases hg : getSchemeGo (splitCut '#' u).1 with
      | err => rw [hg] at h
      | noScheme => rw [hg] at h; simp at h
      | scheme s rest => simp

theorem redirectLocation_verbatim (reqPath u : List Char)
    (ha : isASCII u = true) (hs : hasURLScheme u = true) :
    redirectLocation reqPath u = u := by
  unfold redirectLocation redirectTargetURL
  rw [hasURLScheme_not_applies u hs]
  simp [hexEscapeNonASCII_ascii u ha]

theorem shorten_fst (us : URLShortener) (u : List Char) :
    (us.Shorten u).1 = shortIDOf us.idLength u := rfl

theorem shorten_map (us : URLShortener) (u : List Char) :
    (us.Shorten u).2.urlMap = mapSet us.urlMap (shortIDOf us.idLength u) u := rfl

theorem shorten_idLength (us : URLShortener) (u : List Char) :
    (us.Shorten u).2.idLength = us.idLength := rfl

theorem newShortener_idLength (host : List Char) :
    (NewURLShortener host).idLength = 8 := rfl

theorem newShortener_map (host : List Char) :
    (NewURLShortener host).urlMap = [] := rfl

theorem mapSet_mapSet_nil (k u v : List Char) :
    mapSet (mapSet [] k u) k v = [(k, v)] := by
  simp [mapSet, List.filter]

/-! ## Claim theorems -/

/-- Sanity: the embedded SHA-256 reproduces the FIPS 180-4 test
vector for `"abc"`. -/
theorem sha256_abc_vector :
    hexEncode (sha256Bytes (utf8Bytes "abc".data)) =
      "ba7816bf8f01cfea414140de5dae2223b00361a396177a9cb410ff61f20015ad".data := by
  decide

/-- C1 (counterexample): two concrete distinct URLs receive the same
short ID, and the stored mapping for that short ID changes from the
first URL to the second over the lifetime of the store — so a
many-to-one relation from distinct URLs to one short ID is possible,
and one short ID does not map to a single target URL for the store's
lifetime. -/
theorem C1_counterexample :
    ((NewURLShortener hostW).Shorten collU1).1 = ((NewURLShortener hostW).Shorten collU2).1 ∧
    collU1 ≠ collU2 ∧
    mapGet ((NewURLShortener hostW).Shorten collU1).2.urlMap
      (((NewURLShortener hostW).Shorten collU1).1) = some collU1 ∧
    mapGet (((NewURLShortener hostW).Shorten collU1).2.Shorten collU2).2.urlMap
      (((NewURLShortener hostW).Shorten collU1).1) = some collU2 := by
  refine ⟨by decide, by decide, by decide, by decide⟩

/-- C1 (amended): for identical inputs the fingerprint is identical
and re-shortening is a no-op — `Shorten` of the same URL twice
returns the same short ID and leaves the store exactly as after the
first call. -/
theorem C1_amended_idempotent (us : URLShortener) (u : List Char) :
    ((us.Shorten u).2.Shorten u).1 = (us.Shorten u).1 ∧
    ((us.Shorten u).2.Shorten u).2 = (us.Shorten u).2 := by
  constructor
  · simp [URLShortener.Shorten]
  · simp [URLShortener.Shorten, mapSet_idem]

/-- C2: after `Shorten(u)` returns a short ID, a `Get` of that ID on
the resulting store yields exactly `(u, found = true)` with no
error. -/
theorem C2_shorten_roundtrip (us : URLShortener) (u : List Char) :
    InMemoryStorage.Get (us.Shorten u).2.urlMap (us.Shorten u).1 = (u, true, none) := by
  simp [URLShortener.Shorten, InMemoryStorage.Get, mapGet_mapSet_self]

/-- C3 (counterexample): the verbatim-Location claim fails on a
reachable store content — after `POST /` stores a URL containing a
non-ASCII character, `GET` of its id is a 301 whose `Location` is the
percent-escaped form (`%c3%bc` for `ü`), not the stored URL
verbatim. -/
theorem C3_counterexample :
    (serve ((serve (NewURLShortener hostW)
        { method := "POST".data, path := "/".data, body := uC3 }).2)
      { method := "GET".data, path := '/' :: shortIDOf 8 uC3, body := [] }).1.status = 301 ∧
    (serve ((serve (NewURLShortener hostW)
        { method := "POST".data, path := "/".data, body := uC3 }).2)
      { method := "GET".data, path := '/' :: shortIDOf 8 uC3, body := [] }).1.location =
        some "https://example.com/%c3%bc".data ∧
    (serve ((serve (NewURLShortener hostW)
        { method := "POST".data, path := "/".data, body := uC3 }).2)
      { method := "GET".data, path := '/' :: shortIDOf 8 uC3, body := [] }).1.location ≠
        some uC3 := by
  refine ⟨by decide, by decide, by decide⟩

/-- C3 (amended): a GET for a non-empty id present in the store is a
301 whose `Location` is `http.Redirect`'s transform of the stored URL
(relative rewrite for scheme-and-host-less URLs, then
percent-escaping of non-ASCII bytes); for stored URLs that are ASCII
and begin with a URL scheme — absolute URLs, covering the signed-URL
scenario — the `Location` equals the stored URL verbatim.  An absent
id is a 404. -/
theorem C3_redirect_or_404 (us : URLShortener) (path body : List Char)
    (hid : trimPrefix path ['/'] ≠ []) :
    (∀ url, mapGet us.urlMap (trimPrefix path ['/']) = some url →
      (serve us { method := "GET".data, path := path, body := body }).1.status = 301 ∧
      (serve us { method := "GET".data, path := path, body := body }).1.location =
        some (redirectLocation path url) ∧
      (isASCII url = true → hasURLScheme url = true →
        (serve us { method := "GET".data, path := path, body := body }).1.location =
          some url)) ∧
    (mapGet us.urlMap (trimPrefix path ['/']) = none →
      (serve us { method := "GET".data, path := path, body := body }).1.status = 404) := by
  have hm : ("GET".data : List Char) ≠ "POST".data := by decide
  constructor
  · intro url hurl
    refine ⟨by simp [serve, hm, hid, hurl], by simp [serve, hm, hid, hurl], ?_⟩
    intro ha hs
    have hloc : (serve us { method := "GET".data, path := path, body := body }).1.location =
        some (redirectLocation path url) := by
      simp [serve, hm, hid, hurl]
    rw [hloc, redirectLocation_verbatim path url ha hs]
  · intro hnone
    simp [serve, hm, hid, hnone]

/-- C3 witness: on a store holding `abcd1234` mapped to an absolute
ASCII URL, `GET /abcd1234` is a 301 whose `Location` is that URL
verbatim, and `GET /zzzz` is a 404. -/
theorem C3_witness :
    (serve usW { method := "GET".data, path := "/abcd1234".data, body := [] }).1.location =
      some "https://example.org/target".data ∧
    (serve usW { method := "GET".data, path := "/zzzz".data, body := [] }).1.status = 404 := by
  constructor
  · exact ((C3_redirect_or_404 usW "/abcd1234".data [] (by decide)).1 _
      (by decide)).2.2 (by decide) (by decide)
  · exact (C3_redirect_or_404 usW "/zzzz".data [] (by decide)).2 (by decide)

/-- C4: `POST /` trims the body; an empty trimmed body is a 400,
otherwise the response is a 200 whose body is
`host + "/" + shortID(trimmed body)` with an 8-character lowercase
hex short ID. -/
theorem C4_post_root (us : URLShortener) (body : List Char) (h8 : us.idLength = 8) :
    (trimSpace body = [] →
      (serve us { method := "POST".data, path := "/".data, body := body }).1.status = 400) ∧
    (trimSpace body ≠ [] →
      (serve us { method := "POST".data, path := "/".data, body := body }).1.status = 200 ∧
      (serve us { method := "POST".data, path := "/".data, body := body }).1.body =
        us.host ++ '/' :: shortIDOf 8 (trimSpace body) ∧
      (shortIDOf 8 (trimSpace body)).length = 8 ∧
      ∀ c ∈ shortIDOf 8 (trimSpace body), isLowerHexChar c = true) := by
  have hroot : trimPrefix ("/".data) ['/'] = [] := by decide
  constructor
  · intro hempty
    simp [serve, hroot, hempty]
  · intro hne
    refine ⟨?_, ?_, shortIDOf_length _, shortIDOf_hex 8 _⟩
    · simp [serve, hroot, hne]
    · simp [serve, hroot, hne, URLShortener.GetShortURL, URLShortener.Shorten, h8]

/-- C4 witness: a concrete `POST /` with a non-empty body is a 200
and a whitespace-only body is a 400. -/
theorem C4_witness :
    (serve (NewURLShortener hostW)
      { method := "POST".data, path := "/".data, body := "https://foo.test/x".data }).1.status = 200 ∧
    (serve (NewURLShortener hostW)
      { method := "POST".data, path := "/".data, body := "  ".data }).1.status = 400 := by
  constructor
  · exact ((C4_post_root (NewURLShortener hostW) "https://foo.test/x".data rfl).2 (by decide)).1
  · exact (C4_post_root (NewURLShortener hostW) "  ".data rfl).1 (by decide)

/-- C5: a POST whose path is non-empty and not the root `/` is
answered with a 400, whatever the body. -/
theorem C5_post_nonroot_400 (us : URLShortener) (path body : List Char)
    (h0 : path ≠ []) (h1 : path ≠ ['/']) :
    (serve us { method := "POST".data, path := path, body := body }).1.status = 400 := by
  have hid : trimPrefix path ['/'] ≠ [] := trimPrefix_slash_ne_nil path h0 h1
  simp [serve, hid]

/-- C5 witness: `POST /extra-path` is a 400. -/
theorem C5_witness :
    (serve usW { method := "POST".data, path := "/extra-path".data, body := "x".data }).1.status = 400 :=
  C5_post_nonroot_400 usW "/extra-path".data "x".data (by decide) (by decide)

/-- C6: a request whose method is neither GET nor POST is answered
with a 405, whatever the path and body. -/
theorem C6_other_method_405 (us : URLShortener) (m path body : List Char)
    (hp : m ≠ "POST".data) (hg : m ≠ "GET".data) :
    (serve us { method := m, path := path, body := body }).1.status = 405 := by
  simp [serve, hp, hg]

/-- C6 witness: a concrete `PUT` request is a 405. -/
theorem C6_witness :
    (serve usW { method := "PUT".data, path := "/abcd1234".data, body := [] }).1.status = 405 :=
  C6_other_method_405 usW "PUT".data "/abcd1234".data [] (by decide) (by decide)

/-- C7: the storage backend is the single source of truth — the
service resolves by reading the backend alone (so any two service
values resolve identically over the same backend, after any operation
history), and `Shorten` writes only through the backend. -/
theorem C7_backend_single_source (sv sv' : StorageShortener) (store : Store)
    (ops : List SOp) (id url : List Char) :
    StorageShortener.Resolve sv store id = InMemoryStorage.Get store id ∧
    StorageShortener.Resolve sv (runOps sv' store ops) id =
      InMemoryStorage.Get (runOps sv' store ops) id ∧
    (sv.Shorten store url).2 = mapSet store (shortIDOf sv.idLength url) url ∧
    StorageShortener.Resolve sv store id = StorageShortener.Resolve sv' store id :=
  ⟨rfl, rfl, rfl, rfl⟩

/-- C8: `Shorten` succeeds on every string (the empty string
included), returning an identifier of length exactly 8 made only of
lowercase hexadecimal characters. -/
theorem C8_shorten_length_hex (host u : List Char) :
    ((NewURLShortener host).Shorten u).1.length = 8 ∧
    ∀ c ∈ ((NewURLShortener host).Shorten u).1, isLowerHexChar c = true := by
  constructor
  · simpa [URLShortener.Shorten, NewURLShortener] using shortIDOf_length u
  · intro c hc
    refine shortIDOf_hex 8 u c ?_
    simpa [URLShortener.Shorten, NewURLShortener] using hc

/-- C8 witness: shortening the empty string yields an 8-character id
whose first character `e` is lowercase hex. -/
theorem C8_witness :
    ((NewURLShortener hostW).Shorten []).1.length = 8 ∧ isLowerHexChar 'e' = true := by
  constructor
  · exact (C8_shorten_length_hex hostW []).1
  · exact (C8_shorten_length_hex hostW []).2 'e' (by decide)

/-- C9: a `Get` for an absent key yields the empty string,
`found = false` and no error on both backends, and the Redis variant
reports an error only when the client round trip itself failed. -/
theorem C9_get_miss (m store : Store) (conn : Option (List Char)) (id : List Char)
    (hm : mapGet m id = none) (hr : mapGet store ("url:".data ++ id) = none) :
    InMemoryStorage.Get m id = ([], false, none) ∧
    RedisStorage.Get store none id = ([], false, none) ∧
    ((RedisStorage.Get store conn id).2.2 ≠ none → ∃ e, conn = some e) := by
  have hr' : mapGet store ('u' :: 'r' :: 'l' :: ':' :: id) = none := by
    have he : ("url:".data ++ id) = 'u' :: 'r' :: 'l' :: ':' :: id := rfl
    rw [he] at hr
    exact hr
  refine ⟨by simp [InMemoryStorage.Get, hm],
    by simp [RedisStorage.Get, redisClientGet, hr'], ?_⟩
  intro herr
  match conn with
  | some e => exact ⟨e, rfl⟩
  | none =>
      exact absurd (by simp [RedisStorage.Get, redisClientGet, hr'] :
        (RedisStorage.Get store none id).2.2 = none) herr

/-- C9 witness: a concrete missing key on empty backends. -/
theorem C9_witness :
    InMemoryStorage.Get [] "zzzz9999".data = ([], false, none) :=
  (C9_get_miss [] [] (some "connection refused".data) "zzzz9999".data
    (by decide) (by decide)).1

/-- C10: for two distinct URLs whose digests agree on the first 8 hex
characters, shortening the first and then the second on a fresh store
leaves the shared short ID mapped to the second URL: the later write
silently overwrites the earlier mapping and the first URL is no
longer resolvable. -/
theorem C10_collision_overwrite (host u1 u2 : List Char) (hne : u1 ≠ u2)
    (hcol : shortIDOf 8 u1 = shortIDOf 8 u2) :
    (((NewURLShortener host).Shorten u1).2.Shorten u2).1 =
      ((NewURLShortener host).Shorten u1).1 ∧
    mapGet ((((NewURLShortener host).Shorten u1).2.Shorten u2).2).urlMap
      (((NewURLShortener host).Shorten u1).1) = some u2 ∧
    ∀ k v, mapGet ((((NewURLShortener host).Shorten u1).2.Shorten u2).2).urlMap k = some v →
      v ≠ u1 := by
  have e1 : ((((NewURLShortener host).Shorten u1).2.Shorten u2).2).urlMap =
      mapSet (mapSet [] (shortIDOf 8 u1) u1) (shortIDOf 8 u2) u2 := rfl
  have key : ((((NewURLShortener host).Shorten u1).2.Shorten u2).2).urlMap =
      [(shortIDOf 8 u1, u2)] := by
    rw [e1, ← hcol, mapSet_mapSet_nil]
  refine ⟨?_, ?_, ?_⟩
  · show shortIDOf 8 u2 = shortIDOf 8 u1
    exact hcol.symm
  · rw [key]
    show (if shortIDOf 8 u1 = shortIDOf 8 u1 then some u2 else none) = some u2
    rw [if_pos rfl]
  · intro k v hv
    rw [key] at hv
    have hvb := mapGet_singleton _ _ _ _ hv
    rw [hvb]
    exact Ne.symm hne

/-- C10 witness: the concrete colliding pair leaves the shared id
mapped to the second URL. -/
theorem C10_witness :
    mapGet ((((NewURLShortener hostW).Shorten collU1).2.Shorten collU2).2).urlMap
      (((NewURLShortener hostW).Shorten collU1).1) = some collU2 :=
  (C10_collision_overwrite hostW collU1 collU2 (by decide) (by decide)).2.1

end IrcAgent
